import Mathlib

/-!
Verification of the spektrogramilo audio-visualizer core (`src/lib.rs`).

The Rust code is shallowly embedded as follows.

* The pure frequency/pitch mapper (`frequency_to_midi_note`,
  `midi_note_to_frequency`, `frequency_to_y_position`) works on `f64`;
  it is modelled over the real numbers `ℝ`.
* The canvas-drawing code is modelled by pure functions producing a
  `List CanvasOp`, one constructor per `CanvasRenderingContext2d`
  method that the code calls.  Pixel coordinates that the code computes
  with exact `f64` arithmetic on small rationals are modelled in `ℚ`.
* The per-note vertical position used by `draw_piano_roll`
  (`frequency_to_y_position(midi_note_to_frequency(note), height)`,
  a real number) is passed in as a parameter `y : ℕ → ℚ`; the theorems
  about the piano roll hold for every such function, and the mapper
  itself is verified separately over `ℝ`.
* The constructor `Spectrogram::new` performs DOM lookups and
  platform calls; these external collaborators are modelled by an
  explicit environment record `Env`.
-/

namespace Spektrogramilo

/-- `A4_FREQUENCY` from `src/lib.rs` line 8. -/
def A4_FREQUENCY : ℝ := 440.0

/-- `MIDI_A4` from `src/lib.rs` line 9. -/
def MIDI_A4 : ℕ := 69

/-- `MIN_MIDI_NOTE` (A0) from `src/lib.rs` line 10. -/
def MIN_MIDI_NOTE : ℕ := 21

/-- `MAX_MIDI_NOTE` (C8) from `src/lib.rs` line 11. -/
def MAX_MIDI_NOTE : ℕ := 108

/-- `WHITE_KEYS` from `src/lib.rs` lines 12-14. -/
def WHITE_KEYS : List Bool :=
  [true, false, true, false, true, true, false, true, false, true, false, true]

/-- `Spectrogram::frequency_to_midi_note` (`src/lib.rs` lines 98-100):
`12.0 * (freq / A4_FREQUENCY).log2() + MIDI_A4 as f64`, over `ℝ`. -/
noncomputable def frequency_to_midi_note (freq : ℝ) : ℝ :=
  12 * Real.logb 2 (freq / A4_FREQUENCY) + (MIDI_A4 : ℝ)

/-- `Spectrogram::midi_note_to_frequency` (`src/lib.rs` lines 103-105):
`A4_FREQUENCY * 2.0_f64.powf((note - MIDI_A4 as f64) / 12.0)`, over `ℝ`. -/
noncomputable def midi_note_to_frequency (note : ℝ) : ℝ :=
  A4_FREQUENCY * (2 : ℝ) ^ ((note - (MIDI_A4 : ℝ)) / 12)

/-- The `min_frequency` field value set by the constructor
(`src/lib.rs` line 74). -/
def MIN_FREQUENCY : ℝ := 27.5

/-- The `max_frequency` field value set by the constructor
(`src/lib.rs` line 75). -/
def MAX_FREQUENCY : ℝ := 4186.01

/-- `Spectrogram::frequency_to_y_position` (`src/lib.rs` lines 108-115):
`height * (1.0 - (log_freq - log_min) / (log_max - log_min))`, over `ℝ`,
with `self.min_frequency` and `self.max_frequency` passed explicitly. -/
noncomputable def frequency_to_y_position (minF maxF freq height : ℝ) : ℝ :=
  height * (1 - (Real.log freq - Real.log minF) / (Real.log maxF - Real.log minF))

/-- One call on a `CanvasRenderingContext2d`.  `setFillStyleHsl hue lightness`
models `set_fill_style_str(&format!("hsl(\x7b\x7d, 100%, \x7b\x7d%)", hue, lightness))`;
the plain string setter is `setFillStyle`.  Coordinates are the exact
rational values the `f64` code computes. -/
inductive CanvasOp where
  | setFillStyle (s : String)
  | setFillStyleHsl (hue lightness : ℚ)
  | fillRect (x y w h : ℚ)
  | setFont (s : String)
  | setTextAlign (s : String)
  | fillText (s : String) (x y : ℚ)
  | setStrokeStyle (s : String)
  | beginPath
  | moveTo (x y : ℚ)
  | lineTo (x y : ℚ)
  | stroke
deriving DecidableEq, Repr

/-- `WHITE_KEYS[note_idx]` lookup of `src/lib.rs` lines 133-134:
`let note_idx = (note % 12) as usize; WHITE_KEYS[note_idx]`. -/
def is_white (note : ℕ) : Bool := WHITE_KEYS.getD (note % 12) false

/-- Body of the per-note loop of `Spectrogram::draw_piano_roll`
(`src/lib.rs` lines 128-158) for one `note`.  `y note` stands for
`self.frequency_to_y_position(self.midi_note_to_frequency(note as f64), height)`. -/
def noteOps (y : ℕ → ℚ) (prw : ℚ) (note : ℕ) : List CanvasOp :=
  let yp := y note
  if is_white note then
    [.setFillStyle "#aaa", .fillRect 0 (yp - 1) prw 2]
    ++ (if note % 12 = 0 ∨ note = MIDI_A4 then
          [.setFont "10px Arial", .setFillStyle "#fff", .setTextAlign "left",
           .fillText (if note % 12 = 0 then "C" ++ toString (note / 12 - 1) else "A4")
             3 (yp - 3)]
        else [])
  else
    [.setFillStyle "#666", .fillRect 0 (yp - 1/2) (prw * (6/10)) 1]

/-- `Spectrogram::draw_piano_roll` (`src/lib.rs` lines 118-169): background
fill of the reserved strip, the loop over MIDI notes `21..=108`, then the
divider line at `x = piano_roll_width`. -/
def draw_piano_roll (y : ℕ → ℚ) (prw height : ℚ) : List CanvasOp :=
  [.setFillStyle "#222", .fillRect 0 0 prw height]
  ++ ((List.range' MIN_MIDI_NOTE (MAX_MIDI_NOTE - MIN_MIDI_NOTE + 1)).map (noteOps y prw)).flatten
  ++ [.setStrokeStyle "#555", .beginPath, .moveTo prw 0, .lineTo prw height, .stroke]

/-- The list of `fillText` strings appearing in a drawing-op list. -/
def textLabels : List CanvasOp → List String
  | [] => []
  | .fillText s _ _ :: rest => s :: textLabels rest
  | _ :: rest => textLabels rest

/-- The list of `fillRect` widths appearing in a drawing-op list. -/
def fillRectWidths : List CanvasOp → List ℚ
  | [] => []
  | .fillRect _ _ w _ :: rest => w :: fillRectWidths rest
  | _ :: rest => fillRectWidths rest

/-- Cursor position actually used for the column, after the wrap and clamp
checks of `Spectrogram::draw_frame` (`src/lib.rs` lines 264-276):
if `self.waterfall_x >= waterfall_width` it becomes `piano_roll_width`;
else if `self.waterfall_x < piano_roll_width` it becomes
`piano_roll_width`; else it is unchanged. -/
def drawnX (prw W x : ℚ) : ℚ :=
  if W ≤ x then prw else if x < prw then prw else x

/-- Cursor position after one `draw_frame` call: the drawn position plus the
final `self.waterfall_x += 1.0` (`src/lib.rs` line 297). -/
def stepX (prw W x : ℚ) : ℚ := drawnX prw W x + 1

/-- The loop `for (i, &value) in self.freq_data.iter().rev().enumerate()`
(`src/lib.rs` lines 288-294), with `i` the running enumeration index and
`bh = waterfall_height / self.freq_data.len()`. -/
def columnLoop (x bh : ℚ) : ℕ → List ℕ → List CanvasOp
  | _, [] => []
  | i, v :: rest =>
    .setFillStyleHsl (240 * (1 - (v : ℚ) / 255)) 50
      :: .fillRect x ((i : ℚ) * bh) 1 bh
      :: columnLoop x bh (i + 1) rest

/-- The waterfall-column drawing of `Spectrogram::draw_frame`
(`src/lib.rs` lines 285-294): one `1 × bh` rectangle per frequency bin,
iterated in reversed bin order. -/
def columnOps (x H : ℚ) (freq : List ℕ) : List CanvasOp :=
  columnLoop x (H / (freq.length : ℚ)) 0 freq.reverse

/-- The waterfall part of `Spectrogram::draw_frame` (`src/lib.rs`
lines 247-294), given the entry cursor position `x`: clear and redraw the
piano-roll strip; if the cursor overflowed, clear the whole canvas and
redraw the piano roll; clear a one-pixel column at the (wrapped/clamped)
cursor; paint the new column there. -/
def waterfall_ops (y : ℕ → ℚ) (prw W H x : ℚ) (freq : List ℕ) : List CanvasOp :=
  [.setFillStyle "#000", .fillRect 0 0 prw H]
  ++ draw_piano_roll y prw H
  ++ (if W ≤ x then
        [.setFillStyle "#000", .fillRect 0 0 W H] ++ draw_piano_roll y prw H
      else [])
  ++ [.setFillStyle "#000", .fillRect (drawnX prw W x) 0 1 H]
  ++ columnOps (drawnX prw W x) H freq

/-- The loop over `self.time_data` (`src/lib.rs` lines 195-203), with the
running x coordinate: `y = value / 128 * time_height`; a `moveTo` when
`x == 0.0`, otherwise a `lineTo`; then `x += time_slice_width`. -/
def timeLoop (slice H : ℚ) : ℚ → List ℕ → List CanvasOp
  | _, [] => []
  | x, v :: rest =>
    (if x = 0 then CanvasOp.moveTo x ((v : ℚ) / 128 * H)
     else CanvasOp.lineTo x ((v : ℚ) / 128 * H))
      :: timeLoop slice H (x + slice) rest

/-- The time-domain (oscilloscope) part of `Spectrogram::draw_frame`
(`src/lib.rs` lines 181-204): clear to black, stroke style `#0f0`, the
polyline of `time_data`, then `stroke`. -/
def draw_time_ops (W H : ℚ) (data : List ℕ) : List CanvasOp :=
  [.setFillStyle "#000", .fillRect 0 0 W H, .setStrokeStyle "#0f0", .beginPath]
  ++ timeLoop (W / (data.length : ℚ)) H 0 data
  ++ [.stroke]

/-- The loop over `self.freq_data` (`src/lib.rs` lines 227-236), with the
running x coordinate: `bar_height = value / 255 * freq_height`,
`hue = x / freq_width * 360`, a bar anchored at the bottom, then
`x += bar_width`. -/
def freqLoop (barW W H : ℚ) : ℚ → List ℕ → List CanvasOp
  | _, [] => []
  | x, v :: rest =>
    .setFillStyleHsl (x / W * 360) 50
      :: .fillRect x (H - (v : ℚ) / 255 * H) barW ((v : ℚ) / 255 * H)
      :: freqLoop barW W H (x + barW) rest

/-- The frequency-domain (spectrum bars) part of `Spectrogram::draw_frame`
(`src/lib.rs` lines 215-236): clear to black, then the bar loop. -/
def draw_freq_ops (W H : ℚ) (data : List ℕ) : List CanvasOp :=
  [.setFillStyle "#000", .fillRect 0 0 W H]
  ++ freqLoop (W / (data.length : ℚ)) W H 0 data

/-- The mutable (non-platform) fields of the `Spectrogram` struct
(`src/lib.rs` lines 17-29). -/
structure Spectrogram where
  time_data : List ℕ
  freq_data : List ℕ
  waterfall_x : ℚ
  piano_roll_width : ℚ
  min_frequency : ℚ
  max_frequency : ℚ
deriving DecidableEq, Repr

/-- Canvas dimensions read from the three canvas elements each frame
(`src/lib.rs` lines 181-182, 215-216, 247-248). -/
structure Dims where
  time_width : ℚ
  time_height : ℚ
  freq_width : ℚ
  freq_height : ℚ
  waterfall_width : ℚ
  waterfall_height : ℚ

/-- One frame of analyser data: the bytes copied into `self.time_data` by
`get_byte_time_domain_data` and into `self.freq_data` by
`get_byte_frequency_data`. -/
structure Frame where
  timeSamples : List ℕ
  freqMagnitudes : List ℕ

/-- Result of one `draw_frame` call: the drawing operations issued on each
of the three canvases, and the updated `Spectrogram` state. -/
structure DrawResult where
  timeOps : List CanvasOp
  freqOps : List CanvasOp
  waterfallOps : List CanvasOp
  state : Spectrogram
deriving Repr

/-- `Spectrogram::draw_frame` (`src/lib.rs` lines 171-300): the analyser
fills the two sample buffers in place, each canvas is drawn, and the
waterfall cursor advances. -/
def draw_frame (y : ℕ → ℚ) (d : Dims) (s : Spectrogram) (f : Frame) : DrawResult :=
  let s1 : Spectrogram := { s with time_data := f.timeSamples }
  let timeOps := draw_time_ops d.time_width d.time_height s1.time_data
  let s2 : Spectrogram := { s1 with freq_data := f.freqMagnitudes }
  let freqOps := draw_freq_ops d.freq_width d.freq_height s2.freq_data
  let wOps := waterfall_ops y s2.piano_roll_width d.waterfall_width d.waterfall_height
      s2.waterfall_x s2.freq_data
  let s3 : Spectrogram :=
    { s2 with waterfall_x := stepX s2.piano_roll_width d.waterfall_width s2.waterfall_x }
  ⟨timeOps, freqOps, wOps, s3⟩

/-- A DOM element as seen by the constructor: `dyn_into::<HtmlCanvasElement>`
succeeds exactly when the element is a canvas. -/
structure Element where
  isCanvas : Bool

/-- The platform collaborators used by `Spectrogram::new` (`src/lib.rs`
lines 34-77): `web_sys::window()`, `window.document()`,
`document.get_element_by_id`, `AudioContext::new()`,
`context.create_analyser()`, and `analyser.frequency_bin_count()`. -/
structure Env where
  hasWindow : Bool
  hasDocument : Bool
  getElementById : String → Option Element
  audioContextOk : Bool
  createAnalyserOk : Bool
  frequencyBinCount : ℕ

/-- One `document.get_element_by_id(id).ok_or(errMsg)?.dyn_into()?` chain
from `Spectrogram::new`. -/
def getCanvas (env : Env) (id errMsg : String) : Except String Unit :=
  match env.getElementById id with
  | none => .error errMsg
  | some e => if e.isCanvas then .ok () else .error "element is not a canvas"

/-- `Spectrogram::new` (`src/lib.rs` lines 34-77): window and document
lookups, the three canvas lookups in order (time, freq, waterfall), the
audio-context and analyser platform calls, then the initial state with
`waterfall_x: 0.0`, `piano_roll_width: 40.0`, `min_frequency: 27.5`,
`max_frequency: 4186.01` and two zero buffers of length
`frequency_bin_count`. -/
def Spectrogram.new (env : Env)
    (time_canvas_id freq_canvas_id waterfall_canvas_id : String) :
    Except String Spectrogram :=
  if !env.hasWindow then .error "no window found"
  else if !env.hasDocument then .error "no document found"
  else match getCanvas env time_canvas_id "time canvas not found" with
  | .error e => .error e
  | .ok _ =>
    match getCanvas env freq_canvas_id "freq canvas not found" with
    | .error e => .error e
    | .ok _ =>
      match getCanvas env waterfall_canvas_id "waterfall canvas not found" with
      | .error e => .error e
      | .ok _ =>
        if !env.audioContextOk then .error "failed to create audio context"
        else if !env.createAnalyserOk then .error "failed to create analyser"
        else .ok
          { time_data := List.replicate env.frequencyBinCount 0
            freq_data := List.replicate env.frequencyBinCount 0
            waterfall_x := 0
            piano_roll_width := 40
            min_frequency := 27.5
            max_frequency := 4186.01 }

/-- After the wrap and clamp checks, the cursor used for the column is
always inside `[prw, W)`, provided the canvas is wider than the strip. -/
lemma drawnX_bounds (prw W x : ℚ) (h : prw < W) :
    prw ≤ drawnX prw W x ∧ drawnX prw W x < W := by
  unfold drawnX
  split_ifs with h1 h2
  · exact ⟨le_refl _, h⟩
  · exact ⟨le_refl _, h⟩
  · exact ⟨le_of_not_lt h2, lt_of_not_le h1⟩

/-- When the cursor has overflowed, the full-canvas clear followed by the
piano-roll redraw occurs inside the waterfall drawing sequence. -/
lemma waterfall_ops_wrap_infix (y : ℕ → ℚ) (prw W H x : ℚ) (freq : List ℕ)
    (h : W ≤ x) :
    List.IsInfix
      ([CanvasOp.setFillStyle "#000", CanvasOp.fillRect 0 0 W H] ++ draw_piano_roll y prw H)
      (waterfall_ops y prw W H x freq) := by
  refine ⟨[CanvasOp.setFillStyle "#000", CanvasOp.fillRect 0 0 prw H] ++ draw_piano_roll y prw H,
    [CanvasOp.setFillStyle "#000", CanvasOp.fillRect (drawnX prw W x) 0 1 H]
      ++ columnOps (drawnX prw W x) H freq, ?_⟩
  simp [waterfall_ops, h]

/-- The column loop emits two ops per bin. -/
lemma columnLoop_length (x bh : ℚ) :
    ∀ (i : ℕ) (l : List ℕ), (columnLoop x bh i l).length = 2 * l.length := by
  intro i l
  induction l generalizing i with
  | nil => simp [columnLoop]
  | cons v rest ih => simp [columnLoop, ih]; omega

/-- The ops of the column loop, indexed: position `k` of the traversal
carries the `k`-th element of `l` and the rectangle at `y = (i + k) * bh`. -/
lemma columnLoop_getElem (x bh : ℚ) :
    ∀ (l : List ℕ) (i k : ℕ), k < l.length →
      (columnLoop x bh i l)[2 * k]? =
        some (.setFillStyleHsl (240 * (1 - (l.getD k 0 : ℚ) / 255)) 50) ∧
      (columnLoop x bh i l)[2 * k + 1]? =
        some (.fillRect x (((i : ℚ) + (k : ℚ)) * bh) 1 bh) := by
  intro l
  induction l with
  | nil => intro i k hk; simp at hk
  | cons v rest ih =>
    intro i k hk
    cases k with
    | zero => simp [columnLoop]
    | succ m =>
      have hm : m < rest.length := by simpa using hk
      obtain ⟨h1, h2⟩ := ih (i + 1) m hm
      have e1 : 2 * (m + 1) = 2 * m + 1 + 1 := by ring
      have e2 : 2 * (m + 1) + 1 = 2 * m + 1 + 1 + 1 := by ring
      have ecast : ((i + 1 : ℕ) : ℚ) + (m : ℚ) = (i : ℚ) + ((m + 1 : ℕ) : ℚ) := by
        push_cast
        ring
      constructor
      · rw [e1]
        simpa [columnLoop] using h1
      · rw [e2]
        rw [ecast] at h2
        simpa [columnLoop] using h2

/-- Every rectangle the column loop paints sits at the loop's x position. -/
lemma columnLoop_fillRect_x (x bh : ℚ) :
    ∀ (l : List ℕ) (i : ℕ) (op : CanvasOp), op ∈ columnLoop x bh i l →
      ∀ a b w h', op = CanvasOp.fillRect a b w h' → a = x := by
  intro l
  induction l with
  | nil => intro i op hop; simp [columnLoop] at hop
  | cons v rest ih =>
    intro i op hop a b w h' heq
    simp only [columnLoop, List.mem_cons] at hop
    rcases hop with rfl | rfl | hop
    · simp at heq
    · simp_all
    · exact ih (i + 1) op hop a b w h' heq

/-- Starting at the clamped position `40`, as long as the canvas edge
`W = 40 + k` has not been passed, each call advances the cursor by one. -/
lemma stepX_iterate_from_prw (k : ℕ) (W : ℚ) (hW : W = 40 + (k : ℚ)) :
    ∀ j : ℕ, j ≤ k → (stepX 40 W)^[j] 40 = 40 + (j : ℚ) := by
  intro j hj
  induction j with
  | zero => simp
  | succ i ih =>
    have hi := ih (Nat.le_of_succ_le hj)
    rw [Function.iterate_succ_apply', hi, stepX, drawnX]
    have hik : (i : ℚ) < (k : ℚ) := by exact_mod_cast Nat.lt_of_succ_le hj
    have h1 : ¬ W ≤ 40 + (i : ℚ) := by
      rw [hW]
      simp only [not_le, add_lt_add_iff_left]
      exact hik
    have h2 : ¬ (40 + (i : ℚ) < 40) := by
      have : (0 : ℚ) ≤ (i : ℚ) := Nat.cast_nonneg i
      linarith
    rw [if_neg h1, if_neg h2]
    push_cast
    ring

/-- x-extents of the per-note ops: every rectangle spans `[a, a + w) ⊆ [0, prw]`,
every label anchors at `x = 3`, and no line-path op occurs. -/
lemma noteOps_x_extent (y : ℕ → ℚ) (prw : ℚ) (note : ℕ) (h0 : 0 ≤ prw)
    (op : CanvasOp) (hop : op ∈ noteOps y prw note) :
    (∀ a b w h', op = .fillRect a b w h' → 0 ≤ a ∧ a + w ≤ prw) ∧
    (∀ s a b, op = .fillText s a b → a = 3) ∧
    (∀ a b, op = .moveTo a b → False) ∧
    (∀ a b, op = .lineTo a b → False) := by
  by_cases hw : is_white note
  · by_cases hl : note % 12 = 0 ∨ note = MIDI_A4
    · simp only [noteOps, hw, hl, if_true, List.mem_append, List.mem_cons,
        List.mem_singleton, List.not_mem_nil, or_false] at hop
      rcases hop with (rfl | rfl) | (rfl | rfl | rfl | rfl) <;>
        refine ⟨?_, ?_, ?_, ?_⟩ <;> intros <;> simp_all <;> linarith
    · simp only [noteOps, hw, hl, if_true, if_false, List.append_nil,
        List.mem_cons, List.mem_singleton, List.not_mem_nil, or_false] at hop
      rcases hop with rfl | rfl <;>
        refine ⟨?_, ?_, ?_, ?_⟩ <;> intros <;> simp_all <;> linarith
  · simp only [noteOps, hw, if_false, Bool.false_eq_true, List.mem_cons,
      List.mem_singleton, List.not_mem_nil, or_false] at hop
    rcases hop with rfl | rfl <;>
      refine ⟨?_, ?_, ?_, ?_⟩ <;> intros <;> simp_all <;> linarith

/-- **C4.** For every integer MIDI note `n` in `[21, 108]`,
`frequency_to_midi_note (midi_note_to_frequency n)` equals `n` to within
`1e-9` (in the real-number model of `f64` the round trip is exact). -/
theorem freq_midi_roundtrip (n : ℕ) (h1 : MIN_MIDI_NOTE ≤ n) (h2 : n ≤ MAX_MIDI_NOTE) :
    |frequency_to_midi_note (midi_note_to_frequency (n : ℝ)) - (n : ℝ)| ≤ 1e-9 := by
  have h440 : (A4_FREQUENCY : ℝ) ≠ 0 := by norm_num [A4_FREQUENCY]
  have hdiv : midi_note_to_frequency (n : ℝ) / A4_FREQUENCY
      = (2 : ℝ) ^ (((n : ℝ) - (MIDI_A4 : ℝ)) / 12) := by
    rw [midi_note_to_frequency]
    field_simp
  rw [frequency_to_midi_note, hdiv,
    Real.logb_rpow (by norm_num : (0 : ℝ) < 2) (by norm_num : (2 : ℝ) ≠ 1)]
  ring_nf
  norm_num

/-- Witness for C4 at `n = 69` (A4). -/
theorem freq_midi_roundtrip_witness :
    MIN_MIDI_NOTE ≤ 69 ∧ (69 : ℕ) ≤ MAX_MIDI_NOTE ∧
      |frequency_to_midi_note (midi_note_to_frequency ((69 : ℕ) : ℝ)) - ((69 : ℕ) : ℝ)| ≤ 1e-9 :=
  ⟨by decide, by decide, freq_midi_roundtrip 69 (by decide) (by decide)⟩

/-- **C5.** With the fixed range `(27.5, 4186.01)` and any height `H > 0`:
`frequency_to_y_position` maps `27.5` to `H` and `4186.01` to `0`, and any
positive frequency strictly outside `[27.5, 4186.01]` to a `y` strictly
outside `[0, H]` (no clamping). -/
theorem y_position_range (H : ℝ) (hH : 0 < H) :
    frequency_to_y_position MIN_FREQUENCY MAX_FREQUENCY MIN_FREQUENCY H = H ∧
    frequency_to_y_position MIN_FREQUENCY MAX_FREQUENCY MAX_FREQUENCY H = 0 ∧
    (∀ f : ℝ, 0 < f → f < MIN_FREQUENCY →
      H < frequency_to_y_position MIN_FREQUENCY MAX_FREQUENCY f H) ∧
    (∀ f : ℝ, MAX_FREQUENCY < f →
      frequency_to_y_position MIN_FREQUENCY MAX_FREQUENCY f H < 0) := by
  have hmin : (0 : ℝ) < MIN_FREQUENCY := by norm_num [MIN_FREQUENCY]
  have hlt : Real.log MIN_FREQUENCY < Real.log MAX_FREQUENCY :=
    Real.log_lt_log hmin (by norm_num [MIN_FREQUENCY, MAX_FREQUENCY])
  have hd : 0 < Real.log MAX_FREQUENCY - Real.log MIN_FREQUENCY := by linarith
  refine ⟨?_, ?_, ?_, ?_⟩
  · rw [frequency_to_y_position, sub_self, zero_div, sub_zero, mul_one]
  · rw [frequency_to_y_position, div_self (ne_of_gt hd), sub_self, mul_zero]
  · intro f hf hfmin
    have hlog : Real.log f < Real.log MIN_FREQUENCY := Real.log_lt_log hf hfmin
    have hratio : (Real.log f - Real.log MIN_FREQUENCY)
        / (Real.log MAX_FREQUENCY - Real.log MIN_FREQUENCY) < 0 :=
      div_neg_of_neg_of_pos (by linarith) hd
    have : 1 < 1 - (Real.log f - Real.log MIN_FREQUENCY)
        / (Real.log MAX_FREQUENCY - Real.log MIN_FREQUENCY) := by linarith
    calc H = H * 1 := (mul_one H).symm
    _ < _ := by
        rw [frequency_to_y_position]
        exact (mul_lt_mul_left hH).mpr this
  · intro f hfmax
    have hlog : Real.log MAX_FREQUENCY < Real.log f :=
      Real.log_lt_log (by norm_num [MAX_FREQUENCY]) hfmax
    have hratio : 1 < (Real.log f - Real.log MIN_FREQUENCY)
        / (Real.log MAX_FREQUENCY - Real.log MIN_FREQUENCY) :=
      (one_lt_div hd).mpr (by linarith)
    rw [frequency_to_y_position]
    exact mul_neg_of_pos_of_neg hH (by linarith)

/-- Witness for C5 at `H = 100`. -/
theorem y_position_range_witness :
    (0 : ℝ) < 100 ∧
      frequency_to_y_position MIN_FREQUENCY MAX_FREQUENCY MIN_FREQUENCY 100 = 100 :=
  ⟨by norm_num, (y_position_range 100 (by norm_num)).1⟩

/-- **C6.** For every MIDI note in `[21, 108]` and every y-assignment and
reserved width: the note is white iff `note % 12 ∈ {0,2,4,5,7,9,11}`; a white
note draws exactly one band of the full reserved width, a black note exactly
one band of `60%` of the reserved width and no label; a `C` note (`note % 12 = 0`)
is labeled `"C" ++ octave` with `octave = note / 12 - 1`, note `69` is labeled
`"A4"`, and all other notes are unlabeled.  In particular note `60` is white
with label `"C4"` and note `61` is black and unlabeled. -/
theorem piano_note_classification (y : ℕ → ℚ) (prw : ℚ) (note : ℕ)
    (h1 : MIN_MIDI_NOTE ≤ note) (h2 : note ≤ MAX_MIDI_NOTE) :
    ((is_white note = true) ↔ note % 12 ∈ ({0, 2, 4, 5, 7, 9, 11} : Finset ℕ)) ∧
    (is_white note = true → fillRectWidths (noteOps y prw note) = [prw]) ∧
    (is_white note = false →
      fillRectWidths (noteOps y prw note) = [prw * (6/10)] ∧
      textLabels (noteOps y prw note) = []) ∧
    (note % 12 = 0 → textLabels (noteOps y prw note) = ["C" ++ toString (note / 12 - 1)]) ∧
    (note = 69 → textLabels (noteOps y prw note) = ["A4"]) ∧
    (note % 12 ≠ 0 → note ≠ 69 → textLabels (noteOps y prw note) = []) := by
  have h12 : note % 12 = 0 ∨ note % 12 = 1 ∨ note % 12 = 2 ∨ note % 12 = 3 ∨
      note % 12 = 4 ∨ note % 12 = 5 ∨ note % 12 = 6 ∨ note % 12 = 7 ∨
      note % 12 = 8 ∨ note % 12 = 9 ∨ note % 12 = 10 ∨ note % 12 = 11 := by omega
  by_cases h69 : note = 69
  · subst h69
    refine ⟨by decide, ?_, ?_, fun hc => absurd hc (by decide),
      ?_, fun _ hc => absurd rfl hc⟩ <;>
      intro h <;> simp [noteOps, is_white, WHITE_KEYS, textLabels, fillRectWidths, MIDI_A4] at h ⊢
  · rcases h12 with h | h | h | h | h | h | h | h | h | h | h | h <;>
      refine ⟨?_, ?_, ?_, ?_, fun hc => absurd hc h69, ?_⟩ <;>
      simp [noteOps, is_white, WHITE_KEYS, h, h69, MIDI_A4, textLabels, fillRectWidths]

/-- Witness for C6 at notes `60` and `61` (via note `60`; the `61` facts are
the black-key conjuncts instantiated there). -/
theorem piano_note_classification_witness :
    MIN_MIDI_NOTE ≤ 60 ∧ (60 : ℕ) ≤ MAX_MIDI_NOTE ∧
      textLabels (noteOps (fun _ => 50) 40 60) = ["C4"] ∧
      is_white 61 = false := by
  refine ⟨by decide, by decide, ?_, by decide⟩
  have h := (piano_note_classification (fun _ => 50) 40 60 (by decide) (by decide)).2.2.2.1
  simpa using h (by decide)

/-- **C1 (counterexample).** The claimed invariant
`pianoRollWidth ≤ cursorX < canvasWidth` does not hold immediately after
construction: a successful `Spectrogram::new` yields `waterfall_x = 0`,
below `piano_roll_width = 40`. -/
theorem cursor_invariant_fails_at_construction :
    (Spectrogram.new ⟨true, true, fun _ => some ⟨true⟩, true, true, 4⟩
        "time" "freq" "waterfall").map
      (fun s => decide (s.piano_roll_width ≤ s.waterfall_x)) = .ok false := rfl

/-- **C1 (amended).** Provided `pianoRollWidth < canvasWidth`: during every
`draw_frame` call the wrap and clamp checks put the cursor used for the new
column inside `[pianoRollWidth, canvasWidth)`; immediately after the call
the stored cursor lies in `(pianoRollWidth, canvasWidth + 1)` (it may equal
`canvasWidth`, the construction leaves it at `0`); and when the cursor has
overflowed (`cursorX ≥ canvasWidth` at entry) the whole canvas is cleared
to black, the piano roll redrawn, and the column drawn at
`pianoRollWidth`. -/
theorem cursor_invariant_during_draw (y : ℕ → ℚ) (prw W H x : ℚ) (freq : List ℕ)
    (hpw : prw < W) :
    (prw ≤ drawnX prw W x ∧ drawnX prw W x < W) ∧
    (prw < stepX prw W x ∧ stepX prw W x < W + 1) ∧
    (W ≤ x → drawnX prw W x = prw ∧
      List.IsInfix
        ([CanvasOp.setFillStyle "#000", CanvasOp.fillRect 0 0 W H] ++ draw_piano_roll y prw H)
        (waterfall_ops y prw W H x freq)) ∧
    (¬ W ≤ x →
      waterfall_ops y prw W H x freq =
        [CanvasOp.setFillStyle "#000", CanvasOp.fillRect 0 0 prw H] ++ draw_piano_roll y prw H
        ++ [CanvasOp.setFillStyle "#000", CanvasOp.fillRect (drawnX prw W x) 0 1 H]
        ++ columnOps (drawnX prw W x) H freq) := by
  obtain ⟨h1, h2⟩ := drawnX_bounds prw W x hpw
  refine ⟨⟨h1, h2⟩, ⟨?_, ?_⟩, fun h => ⟨?_, waterfall_ops_wrap_infix y prw W H x freq h⟩, ?_⟩
  · unfold stepX
    linarith
  · unfold stepX
    linarith
  · unfold drawnX
    rw [if_pos h]
  · intro h
    simp [waterfall_ops, h]

/-- Witness for the amended C1 at `prw = 40`, `W = 100`, entry cursor `0`. -/
theorem cursor_invariant_during_draw_witness :
    (40 : ℚ) < 100 ∧ (40 : ℚ) ≤ drawnX 40 100 0 ∧ drawnX 40 100 0 < 100 :=
  ⟨by norm_num,
   ((cursor_invariant_during_draw (fun _ => 0) 40 100 50 0 [] (by norm_num)).1).1,
   ((cursor_invariant_during_draw (fun _ => 0) 40 100 50 0 [] (by norm_num)).1).2⟩

/-- **C2 (counterexample).** With `canvasWidth = 100` and
`pianoRollWidth = 40`, starting from `cursorX = 40`, after exactly
`100 - 40 = 60` `draw_frame` calls the cursor is `100`, not back at `40`:
the wrap has not yet happened. -/
theorem cursor_wrap_offbyone_cex :
    (stepX 40 100)^[60] (40 : ℚ) = 100 ∧ ¬ (stepX 40 100)^[60] (40 : ℚ) = 40 := by
  have h := stepX_iterate_from_prw 60 100 (by norm_num) 60 le_rfl
  rw [h]
  norm_num

/-- **C2 (amended).** Starting at `cursorX = pianoRollWidth = 40` with
`canvasWidth = 40 + k` (`k ≥ 1` columns of waterfall): during each of the
first `k` calls the cursor is `40 + j` (`j < k`) and the wrap branch — the
only code that discards waterfall history — is not taken; after those `k`
calls the cursor equals `canvasWidth`; the wrap happens during the
following call: the entire canvas is cleared to black, the piano roll is
redrawn, the new column is drawn at `40`, and the call leaves the cursor
at `41`. -/
theorem cursor_wrap_after_full_width (k : ℕ) (W H : ℚ) (y : ℕ → ℚ) (freq : List ℕ)
    (hk : 1 ≤ k) (hW : W = 40 + (k : ℚ)) :
    (∀ j : ℕ, j ≤ k → (stepX 40 W)^[j] 40 = 40 + (j : ℚ)) ∧
    (∀ j : ℕ, j < k → ¬ W ≤ (stepX 40 W)^[j] 40) ∧
    (stepX 40 W)^[k] 40 = W ∧
    (drawnX 40 W ((stepX 40 W)^[k] 40) = 40 ∧
      List.IsInfix
        ([CanvasOp.setFillStyle "#000", CanvasOp.fillRect 0 0 W H] ++ draw_piano_roll y 40 H)
        (waterfall_ops y 40 W H ((stepX 40 W)^[k] 40) freq)) ∧
    (stepX 40 W)^[k + 1] 40 = 41 := by
  have key := stepX_iterate_from_prw k W hW
  have hkW : (stepX 40 W)^[k] 40 = W := by
    rw [key k le_rfl, hW]
  refine ⟨key, ?_, hkW, ⟨?_, ?_⟩, ?_⟩
  · intro j hj
    rw [key j (le_of_lt hj), hW]
    simp only [not_le, add_lt_add_iff_left]
    exact_mod_cast hj
  · rw [hkW]
    simp [drawnX]
  · exact waterfall_ops_wrap_infix y 40 W H _ freq (le_of_eq hkW.symm)
  · rw [Function.iterate_succ_apply', hkW]
    simp [stepX, drawnX]
    norm_num

/-- Witness for the amended C2 at `k = 1`, `W = 41`. -/
theorem cursor_wrap_after_full_width_witness :
    (1 : ℕ) ≤ 1 ∧ (41 : ℚ) = 40 + ((1 : ℕ) : ℚ) ∧ (stepX 40 41)^[1] 40 = 41 :=
  ⟨le_rfl, by norm_num,
   (cursor_wrap_after_full_width 1 41 10 (fun _ => 0) [] le_rfl (by norm_num)).2.2.1⟩

/-- **C3.** The waterfall column iterates the `N` frequency bins in
reversed index order: the column has `2N` ops; bin `j` occupies traversal
position `N - 1 - j`, with a `1 × (H / N)` rectangle at
`y = (N - 1 - j) * (H / N)` and hue `240 * (1 - magnitude / 255)`; bin `0`
lies at the bottom-most `y` of the column, a magnitude-`0` bin gets hue
`240` and a magnitude-`255` bin gets hue `0`. -/
theorem waterfall_column_reversed_order (x H : ℚ) (freq : List ℕ) (j : ℕ)
    (hj : j < freq.length) (hH : 0 ≤ H) :
    (columnOps x H freq).length = 2 * freq.length ∧
    (columnOps x H freq)[2 * (freq.length - 1 - j)]? =
      some (.setFillStyleHsl (240 * (1 - (freq.getD j 0 : ℚ) / 255)) 50) ∧
    (columnOps x H freq)[2 * (freq.length - 1 - j) + 1]? =
      some (.fillRect x (((freq.length - 1 - j : ℕ) : ℚ) * (H / (freq.length : ℚ))) 1
        (H / (freq.length : ℚ))) ∧
    ((freq.length - 1 - j : ℕ) : ℚ) * (H / (freq.length : ℚ)) ≤
      ((freq.length - 1 - 0 : ℕ) : ℚ) * (H / (freq.length : ℚ)) ∧
    (freq.getD j 0 = 0 → 240 * (1 - (freq.getD j 0 : ℚ) / 255) = 240) ∧
    (freq.getD j 0 = 255 → 240 * (1 - (freq.getD j 0 : ℚ) / 255) = 0) := by
  have hlen : freq.reverse.length = freq.length := List.length_reverse freq
  have hk : freq.length - 1 - j < freq.reverse.length := by
    rw [hlen]
    omega
  obtain ⟨h1, h2⟩ := columnLoop_getElem x (H / (freq.length : ℚ)) freq.reverse 0
    (freq.length - 1 - j) hk
  have hrev : freq.reverse.getD (freq.length - 1 - j) 0 = freq.getD j 0 := by
    rw [List.getD_eq_getElem?_getD, List.getD_eq_getElem?_getD,
      List.getElem?_reverse (by rw [hlen] at hk; exact hk)]
    congr 2
    omega
  refine ⟨?_, ?_, ?_, ?_, ?_, ?_⟩
  · rw [columnOps, columnLoop_length, hlen]
  · rw [columnOps, h1, hrev]
  · rw [columnOps, h2]
    norm_num
  · apply mul_le_mul_of_nonneg_right
    · have : freq.length - 1 - j ≤ freq.length - 1 - 0 := by omega
      exact_mod_cast this
    · exact div_nonneg hH (Nat.cast_nonneg _)
  · intro h
    rw [h]
    norm_num
  · intro h
    rw [h]
    norm_num

/-- Witness for C3 at `freq = [0, 255]`, `j = 0`, `x = 40`, `H = 10`. -/
theorem waterfall_column_reversed_order_witness :
    (0 : ℕ) < ([0, 255] : List ℕ).length ∧ (0 : ℚ) ≤ 10 ∧
      (columnOps 40 10 [0, 255]).length = 4 := by
  refine ⟨by norm_num, by norm_num, ?_⟩
  have h := (waterfall_column_reversed_order 40 10 [0, 255] 0 (by norm_num) (by norm_num)).1
  simpa using h

/-- **C7 (counterexample).** Not every primitive of `draw_piano_roll` stays
at `x < pianoRollWidth`: the divider line is drawn exactly at
`x = pianoRollWidth` (here `40`), and `40 < 40` is false. -/
theorem piano_roll_divider_at_boundary_cex :
    CanvasOp.moveTo 40 0 ∈ draw_piano_roll (fun _ => 50) 40 100 ∧ ¬ ((40 : ℚ) < 40) := by
  constructor
  · simp [draw_piano_roll]
  · norm_num

/-- **C7 (amended).** For a nonnegative reserved width, every primitive of
`draw_piano_roll` keeps its x-geometry within `[0, pianoRollWidth]`: each
filled rectangle covers `[a, a + w) ⊆ [0, pianoRollWidth)` (so it never
touches a pixel column at `x ≥ pianoRollWidth`), each label is anchored at
`x = 3`, and the only primitives reaching `x = pianoRollWidth` are the two
endpoints of the divider line stroked along that boundary. -/
theorem piano_roll_x_extent_amended (y : ℕ → ℚ) (prw H : ℚ) (h0 : 0 ≤ prw)
    (op : CanvasOp) (hop : op ∈ draw_piano_roll y prw H) :
    (∀ a b w h', op = .fillRect a b w h' → 0 ≤ a ∧ a + w ≤ prw) ∧
    (∀ s a b, op = .fillText s a b → a = 3) ∧
    (∀ a b, op = .moveTo a b → a = prw) ∧
    (∀ a b, op = .lineTo a b → a = prw) := by
  rw [draw_piano_roll] at hop
  simp only [List.mem_append] at hop
  rcases hop with (hop | hop) | hop
  · simp only [List.mem_cons, List.not_mem_nil, or_false] at hop
    rcases hop with rfl | rfl <;> refine ⟨?_, ?_, ?_, ?_⟩ <;> intros <;> simp_all
  · simp only [List.mem_flatten, List.mem_map] at hop
    obtain ⟨l, ⟨note, hnote, rfl⟩, hop⟩ := hop
    obtain ⟨hr, ht, hm, hl⟩ := noteOps_x_extent y prw note h0 op hop
    exact ⟨hr, ht, fun a b hab => (hm a b hab).elim, fun a b hab => (hl a b hab).elim⟩
  · simp only [List.mem_cons, List.not_mem_nil, or_false] at hop
    rcases hop with rfl | rfl | rfl | rfl | rfl <;>
      refine ⟨?_, ?_, ?_, ?_⟩ <;> intros <;> simp_all

/-- Witness for the amended C7: the background rectangle of a
`40`-pixel-wide strip spans exactly `[0, 40)`. -/
theorem piano_roll_x_extent_amended_witness :
    (0 : ℚ) ≤ 40 ∧
      CanvasOp.fillRect 0 0 40 100 ∈ draw_piano_roll (fun _ => 50) 40 100 ∧
      ((0 : ℚ) ≤ 0 ∧ (0 : ℚ) + 40 ≤ 40) := by
  have hmem : CanvasOp.fillRect 0 0 40 100 ∈ draw_piano_roll (fun _ => 50) 40 100 := by
    simp [draw_piano_roll]
  exact ⟨by norm_num, hmem,
    (piano_roll_x_extent_amended (fun _ => 50) 40 100 (by norm_num)
      (CanvasOp.fillRect 0 0 40 100) hmem).1 0 0 40 100 rfl⟩

/-- **C8.** Calling `draw_frame` twice with identical analyser data issues
identical drawing sequences on the oscilloscope and spectrum canvases:
those two renderings depend only on the current frame bytes and the canvas
dimensions, not on any state mutated by the first call. -/
theorem draw_frame_osc_spectrum_deterministic (y : ℕ → ℚ) (d : Dims)
    (s : Spectrogram) (f : Frame) :
    (draw_frame y d (draw_frame y d s f).state f).timeOps = (draw_frame y d s f).timeOps ∧
    (draw_frame y d (draw_frame y d s f).state f).freqOps = (draw_frame y d s f).freqOps :=
  ⟨rfl, rfl⟩

/-- **C9.** The constructor fails (producing no instance) whenever any of
the three canvas ids is absent from the document — with the documented
message when the lookups are reached — and succeeds with the documented
initial state when the window, document, three canvas lookups and both
platform calls all succeed. -/
theorem new_requires_canvases (env : Env) (tid fid wid : String) :
    ((env.getElementById tid = none ∨ env.getElementById fid = none ∨
        env.getElementById wid = none) →
      ∀ s : Spectrogram, Spectrogram.new env tid fid wid ≠ .ok s) ∧
    (env.hasWindow = true → env.hasDocument = true →
      (∀ id ∈ [tid, fid, wid], ∃ e, env.getElementById id = some e ∧ e.isCanvas = true) →
      env.audioContextOk = true → env.createAnalyserOk = true →
      Spectrogram.new env tid fid wid = .ok
        { time_data := List.replicate env.frequencyBinCount 0
          freq_data := List.replicate env.frequencyBinCount 0
          waterfall_x := 0
          piano_roll_width := 40
          min_frequency := 27.5
          max_frequency := 4186.01 }) := by
  constructor
  · rintro (h | h | h) s hs <;>
    · unfold Spectrogram.new at hs
      simp only [getCanvas, h] at hs
      repeat' split at hs
      all_goals simp_all
  · intro hw hd hc ha han
    obtain ⟨et, het, hct⟩ := hc tid (by simp)
    obtain ⟨ef, hef, hcf⟩ := hc fid (by simp)
    obtain ⟨ew, hew, hcw⟩ := hc wid (by simp)
    simp [Spectrogram.new, getCanvas, hw, hd, het, hct, hef, hcf, hew, hcw, ha, han]

/-- Witness for C9: a document without the canvases rejects construction;
a document with them yields the documented initial state. -/
theorem new_requires_canvases_witness :
    Spectrogram.new ⟨true, true, fun _ => none, true, true, 4⟩ "time" "freq" "waterfall" ≠
      .ok ⟨[], [], 0, 40, 27.5, 4186.01⟩ ∧
    Spectrogram.new ⟨true, true, fun _ => some ⟨true⟩, true, true, 4⟩ "time" "freq" "waterfall" =
      .ok
        { time_data := List.replicate 4 0
          freq_data := List.replicate 4 0
          waterfall_x := 0
          piano_roll_width := 40
          min_frequency := 27.5
          max_frequency := 4186.01 } :=
  ⟨(new_requires_canvases ⟨true, true, fun _ => none, true, true, 4⟩ "time" "freq" "waterfall").1
      (Or.inl rfl) _,
   (new_requires_canvases ⟨true, true, fun _ => some ⟨true⟩, true, true, 4⟩
      "time" "freq" "waterfall").2 rfl rfl
      (fun id _ => ⟨⟨true⟩, rfl, rfl⟩) rfl rfl⟩

/-- **C10.** With the constructor's `piano_roll_width = 40` and any canvas
wider than that: at every point of the object's lifetime — the cursor
after `n` draw calls starting from the constructor's `0`, including `n = 0`
— the wrap and clamp checks put the column position inside `[40, W)`, and
every rectangle the column loop paints sits at that position, so no
waterfall data is ever painted over the piano-roll strip. -/
theorem waterfall_column_right_of_piano_roll (W H : ℚ) (freq : List ℕ) (n : ℕ)
    (hW : 40 < W) :
    40 ≤ drawnX 40 W ((stepX 40 W)^[n] 0) ∧
    drawnX 40 W ((stepX 40 W)^[n] 0) < W ∧
    ∀ op ∈ columnOps (drawnX 40 W ((stepX 40 W)^[n] 0)) H freq,
      ∀ a b w h', op = CanvasOp.fillRect a b w h' →
        40 ≤ a ∧ a < W := by
  obtain ⟨h1, h2⟩ := drawnX_bounds 40 W ((stepX 40 W)^[n] 0) hW
  refine ⟨h1, h2, ?_⟩
  intro op hop a b w h' heq
  have hx := columnLoop_fillRect_x (drawnX 40 W ((stepX 40 W)^[n] 0))
    (H / (freq.length : ℚ)) freq.reverse 0 op hop a b w h' heq
  rw [hx]
  exact ⟨h1, h2⟩

/-- Witness for C10 at `W = 100`, `n = 0` (the very first draw call). -/
theorem waterfall_column_right_of_piano_roll_witness :
    (40 : ℚ) < 100 ∧ (40 : ℚ) ≤ drawnX 40 100 ((stepX 40 100)^[0] 0) :=
  ⟨by norm_num, (waterfall_column_right_of_piano_roll 100 50 [] 0 (by norm_num)).1⟩

end Spektrogramilo
